import Mathlib

/-!
Shallow embedding of the batch LLM-screening pipeline in
`src/filter_papers_gemini.py`: batch partitioner, model-client retry loop
(`call_model`), response parser (`extract_json_array` over a JSON model of
`json.loads`), decision reconciler (the entry loop of `get_filtered_data`),
and report finalization (`process`).  External effects are made explicit:
the model oracle is a function from the prompt text and the attempt number
to the outcome of one API call, file existence is a Boolean parameter, and
Python exceptions become `Except.error` results carrying the message text.
All text is `List Char`.
-/

/-- Characters of a string literal; keeps all program text as `List Char`. -/
def chars (s : String) : List Char :=
  s.data

/-- The literal "INCLUDE". -/
def sINCLUDE : List Char := chars ("INCLUDE")

/-- The literal "EXCLUDE". -/
def sEXCLUDE : List Char := chars ("EXCLUDE")

/-- The JSON key "index" read by the reconciler. -/
def idxKey : List Char := chars ("index")

/-- The JSON key "TEST" read by the reconciler. -/
def testKey : List Char := chars ("TEST")

/-- The JSON key "REASON" read by the reconciler. -/
def reasonKey : List Char := chars ("REASON")

/-- Does the second list start with the first one? -/
def listStartsWith : List Char → List Char → Bool
  | [], _ => true
  | _ :: _, [] => false
  | c :: cs, x :: xs => x = c && listStartsWith cs xs

/-- Python substring test `needle in hay` on text. -/
def containsSub (needle : List Char) : List Char → Bool
  | [] => needle.isEmpty
  | x :: rest => listStartsWith needle (x :: rest) || containsSub needle rest

/-- Decimal digits of a natural number, via the core digit printer. -/
def natToChars (n : Nat) : List Char :=
  Nat.toDigits 10 n

/-- Decimal text of an integer, as Python `str` prints an `int`. -/
def intToChars : Int → List Char
  | Int.ofNat n => natToChars n
  | Int.negSucc n => '-' :: natToChars (n + 1)

/-- Python `str.upper()` on ASCII text. -/
def pyUpper (s : List Char) : List Char :=
  s.map Char.toUpper

/-- Whitespace stripped by Python `str.strip()` (common ASCII subset). -/
def isPyWs (c : Char) : Bool :=
  c = ' ' || c = '\t' || c = '\n' || c = '\r' || c = Char.ofNat 11 || c = Char.ofNat 12

/-- Python `str.strip()`: drop leading and trailing whitespace. -/
def pyStrip (s : List Char) : List Char :=
  ((s.dropWhile isPyWs).reverse.dropWhile isPyWs).reverse

/-- JSON insignificant whitespace (RFC 8259: space, tab, newline, return). -/
def isJsonWs (c : Char) : Bool :=
  c = ' ' || c = '\t' || c = '\n' || c = '\r'

/-- Skip leading JSON whitespace. -/
def skipWs : List Char → List Char
  | [] => []
  | c :: rest => if isJsonWs c then skipWs rest else c :: rest

/-- Index of the first occurrence of a character, if any. -/
def firstIndexOf (c : Char) : List Char → Option Nat
  | [] => none
  | x :: xs => if x = c then some 0 else (firstIndexOf c xs).map (· + 1)

/-- Index of the last occurrence of a character, if any. -/
def lastIndexOf (c : Char) (s : List Char) : Option Nat :=
  match firstIndexOf c s.reverse with
  | none => none
  | some j => some (s.length - 1 - j)

mutual
/-- Parsed JSON values, as `json.loads` produces them.  Numbers are
modelled as integers (every number appearing in this pipeline is an
integer index); strings are char lists. -/
inductive Json where
  | null
  | bool (b : Bool)
  | num (n : Int)
  | str (s : List Char)
  | arr (xs : JsonList)
  | obj (kvs : JsonKVs)

/-- A JSON array body (mutual with `Json` to keep recursion structural). -/
inductive JsonList where
  | nil
  | cons (hd : Json) (tl : JsonList)

/-- A JSON object body: ordered key/value pairs. -/
inductive JsonKVs where
  | nil
  | cons (k : List Char) (v : Json) (tl : JsonKVs)
end

/-- Decode one JSON string escape (the `\u` form is outside the modelled
subset; no input of this development uses it). -/
def escChar : Char → Option Char
  | '\"' => some '\"'
  | '\\' => some '\\'
  | '/' => some '/'
  | 'n' => some '\n'
  | 't' => some '\t'
  | 'r' => some '\r'
  | 'b' => some (Char.ofNat 8)
  | 'f' => some (Char.ofNat 12)
  | _ => none

/-- Parse the body of a JSON string after the opening quote; returns the
string content and the remaining input. -/
def parseStringBody : List Char → Option (List Char × List Char)
  | [] => none
  | '\"' :: rest => some ([], rest)
  | '\\' :: e :: rest =>
    match escChar e with
    | none => none
    | some c => (parseStringBody rest).map (fun p => (c :: p.1, p.2))
  | c :: rest => (parseStringBody rest).map (fun p => (c :: p.1, p.2))

/-- Accumulate a run of decimal digits. -/
def digitsToNat (acc : Nat) : List Char → Nat × List Char
  | [] => (acc, [])
  | c :: rest =>
    if c.isDigit then digitsToNat (acc * 10 + (c.toNat - 48)) rest
    else (acc, c :: rest)

/-- Parse a strict-JSON unsigned integer literal: one or more digits with
no superfluous leading zero. -/
def parseNumDigits : List Char → Option (Nat × List Char)
  | [] => none
  | c :: rest =>
    if c.isDigit then
      if c = '0' && (match rest with | d :: _ => d.isDigit | [] => false) then none
      else some (digitsToNat (c.toNat - 48) rest)
    else none

/-- Parse a JSON number (integer subset: optional minus then digits). -/
def parseNumber (s : List Char) : Option (Json × List Char) :=
  match s with
  | '-' :: rest => (parseNumDigits rest).map (fun p => (Json.num (-(p.1 : Int)), p.2))
  | _ => (parseNumDigits s).map (fun p => (Json.num (p.1 : Int), p.2))

/-- Match an expected literal tail, returning the remaining input. -/
def dropLit : List Char → List Char → Option (List Char)
  | [], s => some s
  | _ :: _, [] => none
  | c :: cs, x :: xs => if x = c then dropLit cs xs else none

mutual
/-- Fuel-bounded recursive-descent parser for one JSON value, modelling
strict `json.loads` on the integer-number subset.  Returns the value and
the unconsumed remainder. -/
def parseValue : Nat → List Char → Option (Json × List Char)
  | 0, _ => none
  | Nat.succ fuel, s =>
    match skipWs s with
    | [] => none
    | c :: rest =>
      if c = '\x7b' then
        match skipWs rest with
        | '\x7d' :: rest2 => some (Json.obj JsonKVs.nil, rest2)
        | _ => (parseMembers fuel (skipWs rest)).map (fun p => (Json.obj p.1, p.2))
      else if c = '[' then
        match skipWs rest with
        | ']' :: rest2 => some (Json.arr JsonList.nil, rest2)
        | _ => (parseElems fuel (skipWs rest)).map (fun p => (Json.arr p.1, p.2))
      else if c = '\"' then
        (parseStringBody rest).map (fun p => (Json.str p.1, p.2))
      else if c = 't' then
        (dropLit (chars ("rue")) rest).map (fun r => (Json.bool true, r))
      else if c = 'f' then
        (dropLit (chars ("alse")) rest).map (fun r => (Json.bool false, r))
      else if c = 'n' then
        (dropLit (chars ("ull")) rest).map (fun r => (Json.null, r))
      else if c = '-' || c.isDigit then
        parseNumber (c :: rest)
      else none

/-- Parse the nonempty element list of a JSON array, up to and including
the closing bracket. -/
def parseElems : Nat → List Char → Option (JsonList × List Char)
  | 0, _ => none
  | Nat.succ fuel, s =>
    match parseValue fuel s with
    | none => none
    | some (v, rest) =>
      match skipWs rest with
      | ',' :: rest2 => (parseElems fuel rest2).map (fun p => (JsonList.cons v p.1, p.2))
      | ']' :: rest2 => some (JsonList.cons v JsonList.nil, rest2)
      | _ => none

/-- Parse the nonempty member list of a JSON object, up to and including
the closing brace. -/
def parseMembers : Nat → List Char → Option (JsonKVs × List Char)
  | 0, _ => none
  | Nat.succ fuel, s =>
    match skipWs s with
    | '\"' :: rest =>
      match parseStringBody rest with
      | none => none
      | some (k, rest2) =>
        match skipWs rest2 with
        | ':' :: rest3 =>
          match parseValue fuel rest3 with
          | none => none
          | some (v, rest4) =>
            match skipWs rest4 with
            | ',' :: rest5 => (parseMembers fuel rest5).map (fun p => (JsonKVs.cons k v p.1, p.2))
            | '\x7d' :: rest5 => some (JsonKVs.cons k v JsonKVs.nil, rest5)
            | _ => none
        | _ => none
    | _ => none
end

/-- Model of Python `json.loads`: parse exactly one JSON value with only
whitespace around it; `none` models a raised `JSONDecodeError`. -/
def json_loads (s : List Char) : Option Json :=
  match parseValue (2 * s.length + 2) s with
  | some (v, rest) =>
    match skipWs rest with
    | [] => some v
    | _ => none
  | none => none

/-- Error message of `extract_json_array` when no bracketed span exists. -/
def errNoJson : List Char := chars ("No JSON array/object found in model response.")

/-- Marker for a `json.JSONDecodeError` raised by `json.loads`. -/
def errJsonDecode : List Char := chars ("JSONDecodeError: invalid JSON in extracted snippet")

/-- The span matched by the greedy Python regex search for a pattern of
the form `open .* close` with `re.DOTALL`: a match starts at the leftmost
`openC` that has some `closeC` after it, and the greedy `.*` extends to
the last `closeC` of the whole text.  If any `openC` has a `closeC` after
it then the first `openC` does too, so a match exists exactly when the
first index of `openC` is below the last index of `closeC`, and the match
is the inclusive span between those two positions. -/
def regexSpan (openC closeC : Char) (s : List Char) : Option (List Char) :=
  match firstIndexOf openC s, lastIndexOf closeC s with
  | some i, some j => if i < j then some ((s.drop i).take (j - i + 1)) else none
  | _, _ => none

/-- Run `json.loads` on an extracted snippet, turning a decode failure
into the propagating exception. -/
def parseSnippet (snippet : List Char) : Except (List Char) Json :=
  match json_loads snippet with
  | some v => Except.ok v
  | none => Except.error errJsonDecode

/-- `extract_json_array(text)` from the source: search for the greedy
`[.*]` span; if none, fall back to the greedy brace span; if neither
exists raise `ValueError`; otherwise `json.loads` the snippet. -/
def extract_json_array (text : List Char) : Except (List Char) Json :=
  match regexSpan '[' ']' text with
  | some snippet => parseSnippet snippet
  | none =>
    match regexSpan '\x7b' '\x7d' text with
    | some snippet => parseSnippet snippet
    | none => Except.error errNoJson

/-- Result of one attempted API call of the external oracle. -/
inductive AttemptResult where
  | ok (text : List Char)
  | err (msg : List Char)

/-- Observable outcome of `call_model`: the returned response text, a
re-raised exception, or the implicit `None` return when the while loop
exhausts (unreachable while `MAX_RETRIES = 3`). -/
inductive CallOutcome where
  | text (t : List Char)
  | raised (e : List Char)
  | noneReturn

/-- `MAX_RETRIES` from the source. -/
def MAX_RETRIES : Nat := 3

/-- Classifier for the rate-limit branch: `"429" in str(e) or
"RESOURCE_EXHAUSTED" in str(e)`.  In the source this branch only selects
a 60 second sleep; sleeping is not observable in this embedding. -/
def isRateLimitErr (e : List Char) : Bool :=
  containsSub (chars ("429")) e || containsSub (chars ("RESOURCE_EXHAUSTED")) e

/-- Classifier for the transient-unavailable branch: `"503" in str(e) or
"SERVICE_UNAVAILABLE" in str(e)`.  In the source this branch only selects
an exponential-backoff sleep; sleeping is not observable here. -/
def isUnavailableErr (e : List Char) : Bool :=
  containsSub (chars ("503")) e || containsSub (chars ("SERVICE_UNAVAILABLE")) e

/-- The retry loop of `call_model`, fuelled by the remaining iterations of
`while attempt < MAX_RETRIES` (fuel is `MAX_RETRIES - attempt`).  On an
exception the source classifies it (choosing only a sleep duration, see
`isRateLimitErr` and `isUnavailableErr`), increments `attempt`, and
re-raises the caught error once `attempt >= MAX_RETRIES`; otherwise it
loops and calls the oracle again, whatever the error class was. -/
def call_model_loop (oracle : Nat → AttemptResult) : Nat → Nat → CallOutcome
  | 0, _ => CallOutcome.noneReturn
  | Nat.succ fuel, attempt =>
    match oracle attempt with
    | AttemptResult.ok t => CallOutcome.text t
    | AttemptResult.err e =>
      if MAX_RETRIES ≤ attempt + 1 then CallOutcome.raised e
      else call_model_loop oracle fuel (attempt + 1)

/-- `call_model(prompt)` for a fixed prompt, with the oracle giving the
result of each numbered attempt. -/
def call_model (oracle : Nat → AttemptResult) : CallOutcome :=
  call_model_loop oracle MAX_RETRIES 0

/-- One verdict stored in the result dict: the normalized TEST string and
the REASON value (a parsed JSON value, or the empty string default). -/
structure Verdict where
  TEST : List Char
  REASON : Json

/-- The accumulated `results` dict, keyed by the coerced integer index.
Python dict semantics: insertion order, unique keys, updates in place. -/
abbrev ResultMap : Type := List (Int × Verdict)

/-- Python dict store `m[k] = v`: update in place if the key exists,
otherwise append. -/
def dictInsert (m : ResultMap) (k : Int) (v : Verdict) : ResultMap :=
  if (List.any m (fun kv => decide (kv.1 = k))) then
    List.map (fun kv => if kv.1 = k then (k, v) else kv) m
  else m ++ [(k, v)]

/-- Python dict lookup `m.get(k)` as an `Option`. -/
def dictGet? (m : ResultMap) (k : Int) : Option Verdict :=
  (List.find? (fun kv => decide (kv.1 = k)) m).map (fun kv => kv.2)

/-- Last binding of a key in a JSON object body (`json.loads` builds a
Python dict, so a duplicated key keeps its last value). -/
def kvsFindLast (key : List Char) : JsonKVs → Option Json
  | JsonKVs.nil => none
  | JsonKVs.cons k v tl =>
    match kvsFindLast key tl with
    | some r => some r
    | none => if k = key then some v else none

/-- Message of the `AttributeError` raised by `entry.get` when the parsed
entry is not a dict. -/
def errAttr : List Char := chars ("AttributeError: entry has no attribute get")

/-- `entry.get(key, default)`: only dicts have `.get`; a missing key
yields the default (`Json.null` models Python `None`). -/
def jsonGet (j : Json) (key : List Char) (dflt : Json) : Except (List Char) Json :=
  match j with
  | Json.obj kvs => Except.ok ((kvsFindLast key kvs).getD dflt)
  | _ => Except.error errAttr

/-- Message of the `ValueError` raised by `int()` on a malformed string. -/
def errIntLiteral : List Char := chars ("ValueError: invalid literal for int() with base 10")

/-- Message of the `TypeError` raised by `int()` on a non-coercible type. -/
def errIntType : List Char := chars ("TypeError: int() argument must not be None, a list or a dict")

/-- Digits of a stripped candidate integer string: nonempty all-digit run. -/
def allDigitsVal : List Char → Option Nat
  | [] => none
  | s =>
    if List.all s Char.isDigit then
      some ((digitsToNat 0 s).1)
    else none

/-- Python `int(str)` on text: strip whitespace, optional sign, digits
(the underscore digit separator is outside the modelled subset). -/
def pyIntOfChars (s : List Char) : Option Int :=
  match pyStrip s with
  | '-' :: ds => (allDigitsVal ds).map (fun n => -(n : Int))
  | '+' :: ds => (allDigitsVal ds).map (fun n => (n : Int))
  | ds => (allDigitsVal ds).map (fun n => (n : Int))

/-- Python `int(x)` on a parsed JSON value: ints pass through, bools
coerce, numeric strings parse, everything else raises. -/
def pyInt : Json → Except (List Char) Int
  | Json.num n => Except.ok n
  | Json.bool b => Except.ok (if b then 1 else 0)
  | Json.str s =>
    match pyIntOfChars s with
    | some n => Except.ok n
    | none => Except.error errIntLiteral
  | _ => Except.error errIntType

mutual
/-- Python `repr` of a parsed JSON value (quote-escaping inside reprs is
elided; only `str()` of plain strings is ever compared in the pipeline). -/
def pyRepr : Json → List Char
  | Json.null => chars ("None")
  | Json.bool true => chars ("True")
  | Json.bool false => chars ("False")
  | Json.num n => intToChars n
  | Json.str s => Char.ofNat 39 :: (s ++ [Char.ofNat 39])
  | Json.arr xs => '[' :: (pyReprList xs ++ [']'])
  | Json.obj kvs => '\x7b' :: (pyReprKVs kvs ++ ['\x7d'])

/-- Comma-separated reprs of array elements. -/
def pyReprList : JsonList → List Char
  | JsonList.nil => []
  | JsonList.cons x JsonList.nil => pyRepr x
  | JsonList.cons x tl => pyRepr x ++ (chars (", ") ++ pyReprList tl)

/-- Comma-separated reprs of object members (keys shown in quotes). -/
def pyReprKVs : JsonKVs → List Char
  | JsonKVs.nil => []
  | JsonKVs.cons k v JsonKVs.nil =>
    Char.ofNat 39 :: (k ++ (Char.ofNat 39 :: (chars (": ") ++ pyRepr v)))
  | JsonKVs.cons k v tl =>
    Char.ofNat 39 :: (k ++ (Char.ofNat 39 :: (chars (": ") ++ (pyRepr v ++ (chars (", ") ++ pyReprKVs tl)))))
end

/-- Python `str(x)` of a parsed JSON value: identity on strings, `None`,
`True` and `False` spelled as Python prints them, reprs for containers. -/
def pyStr : Json → List Char
  | Json.str s => s
  | j => pyRepr j

/-- One iteration of the reconciler loop of `get_filtered_data`:
read `index` (coerced with `int`), read `TEST` (upper-cased `str`), read
`REASON` only when TEST is exactly "EXCLUDE" (empty string otherwise),
then store the verdict at the coerced index.  Any raised exception
becomes `Except.error` and propagates. -/
def reconcileEntry (results : ResultMap) (entry : Json) : Except (List Char) ResultMap :=
  match jsonGet entry idxKey Json.null with
  | Except.error e => Except.error e
  | Except.ok idxv =>
    match pyInt idxv with
    | Except.error e => Except.error e
    | Except.ok idx =>
      match jsonGet entry testKey (Json.str []) with
      | Except.error e => Except.error e
      | Except.ok testv =>
        let test := pyUpper (pyStr testv)
        match (if test = sEXCLUDE then jsonGet entry reasonKey (Json.str []) else Except.ok (Json.str [])) with
        | Except.error e => Except.error e
        | Except.ok reason =>
          Except.ok (dictInsert results idx
            (Verdict.mk (if test = sINCLUDE then sINCLUDE else sEXCLUDE) reason))

/-- The `for entry in parsed` loop: apply each entry in order, stopping at
the first raised exception. -/
def applyEntries (results : ResultMap) : JsonList → Except (List Char) ResultMap
  | JsonList.nil => Except.ok results
  | JsonList.cons e tl =>
    match reconcileEntry results e with
    | Except.error err => Except.error err
    | Except.ok r => applyEntries r tl

/-- One input record as sent to a batch: the 0-based dataset index plus
the coerced title and abstract strings. -/
structure Item where
  index : Nat
  title : List Char
  abstract : List Char

/-- One CSV row: column name to (stringified) cell text.  CSV reading
happens upstream in pandas; the embedding receives the rows directly. -/
abbrev Row : Type := List (List Char × List Char)

/-- Python `r.get(col, "")` followed by `str` (cells are modelled as the
strings `str` produces). -/
def rowGetD (r : Row) (col : List Char) (d : List Char) : List Char :=
  ((List.find? (fun kv => decide (kv.1 = col)) r).map (fun kv => kv.2)).getD d

/-- The list comprehension building batch items: `index` is the batch
start plus the position within the batch. -/
def mkItemsFrom (title_col abstract_col : List Char) (start : Nat) : Nat → List Row → List Item
  | _, [] => []
  | i, r :: rest =>
    Item.mk (start + i) (rowGetD r title_col []) (rowGetD r abstract_col []) ::
      mkItemsFrom title_col abstract_col start (i + 1) rest

/-- Escape one character as `json.dumps` prints string content (the rare
control characters outside this table do not occur in this development). -/
def jsonEscapeChar (c : Char) : List Char :=
  if c = '\"' then chars ("\\\"")
  else if c = '\\' then chars ("\\\\")
  else if c = '\n' then chars ("\\n")
  else if c = '\t' then chars ("\\t")
  else if c = '\r' then chars ("\\r")
  else [c]

/-- A JSON string literal as `json.dumps` prints it (`ensure_ascii=False`
keeps non-ASCII text as is). -/
def jsonQuote (s : List Char) : List Char :=
  '\"' :: ((s.map jsonEscapeChar).flatten ++ ['\"'])

/-- `json.dumps` text of one payload object under `indent=2`. -/
def dumpsItem (it : Item) : List Char :=
  chars ("  \x7b\n    \"index\": ") ++ (natToChars it.index ++
    (chars (",\n    \"title\": ") ++ (jsonQuote it.title ++
      (chars (",\n    \"abstract\": ") ++ (jsonQuote it.abstract ++ chars ("\n  \x7d"))))))

/-- `json.dumps(payload, ensure_ascii=False, indent=2)` for the batch
payload list. -/
def dumpsPayload (items : List Item) : List Char :=
  match items with
  | [] => chars ("[]")
  | _ =>
    chars ("[\n") ++
      ((List.intersperse (chars (",\n")) (items.map dumpsItem)).flatten ++ chars ("\n]"))

/-- The fixed instruction text `PROMPT_INSTRUCTION` from the source. -/
def PROMPT_INSTRUCTION : List Char :=
  chars ("You will receive a JSON array of papers (each with index, title, abstract). For each paper return an object with keys:\n- index: integer, same as input\n- TEST: either \"INCLUDE\" or \"EXCLUDE\"\n- REASON: only present when TEST is \"EXCLUDE\" — one of: \"TOPIC\", \"PUBLICATION_TYPE\", \"LANGUAGE\"\n\nRules:\n1) Return ONLY a single JSON array and nothing else — no explanation, no markdown, no extra text.\n2) Output must be valid JSON parseable by a strict JSON parser.\n3) Use uppercase for TEST and REASON exactly as specified.\n4) If multiple exclusion reasons apply, pick the single most important reason using this priority order: TOPIC > PUBLICATION_TYPE > LANGUAGE.\n5) If title or abstract are empty or insufficient to decide, default to \"EXCLUDE\" with REASON \"TOPIC\".\n6) Base your decision ONLY on the provided title and abstract text; do not infer outside information.\n\n7) **I only want papers that have a hybrid approach combining subsymbolic and symbolic methods for reasoning or learning. Exclude papers that focus solely on subsymbolic methods (e.g., deep learning, neural networks) or solely on symbolic methods (e.g., logic-based systems, rule-based reasoning). The hybrid approach should integrate both paradigms to leverage their complementary strengths.**\n\nExample (must match this structure exactly):\n[\x7b\"index\":0,\"TEST\":\"INCLUDE\"\x7d,\x7b\"index\":1,\"TEST\":\"EXCLUDE\",\"REASON\":\"TOPIC\"\x7d]\n\n")

/-- `build_prompt(context_text, items)` from the source. -/
def build_prompt (context_text : List Char) (items : List Item) : List Char :=
  PROMPT_INSTRUCTION ++ (chars ("Context:\n") ++ (pyStrip context_text ++
    (chars ("\n\nPapers:\n") ++ (dumpsPayload items ++
      chars ("\n\nRespond now with the JSON array as specified.")))))

/-- Message of the `ValueError` the source raises when the parsed JSON is
not a list. -/
def errNotAList : List Char := chars ("Model returned JSON that is not a list.")

/-- Message of the `TypeError` `re.search` would raise on the `None`
returned by an exhausted retry loop (unreachable while `MAX_RETRIES` is
3, since the loop always re-raises at the boundary). -/
def errNoneText : List Char := chars ("TypeError: expected string or bytes-like object")

/-- Message of the `ValueError` `range` raises on a zero step. -/
def errBatchZero : List Char := chars ("ValueError: range() arg 3 must not be zero")

/-- The batch loop of `get_filtered_data`, iterating over the list of
batch start offsets (`range(0, len(rows), batch_size)`).  A failed model
call is caught and returns the results collected so far; any exception
raised by extraction, the list check, or the reconciler propagates. -/
def runBatches (oracle : List Char → Nat → AttemptResult) (rows : List Row)
    (title_col abstract_col context_text : List Char) (batch_size : Nat) :
    List Nat → ResultMap → Except (List Char) ResultMap
  | [], results => Except.ok results
  | start :: rest, results =>
    let batch_rows := (rows.drop start).take batch_size
    let items := mkItemsFrom title_col abstract_col start 0 batch_rows
    let prompt := build_prompt context_text items
    match call_model (oracle prompt) with
    | CallOutcome.raised _ => Except.ok results
    | CallOutcome.noneReturn => Except.error errNoneText
    | CallOutcome.text raw =>
      match extract_json_array raw with
      | Except.error e => Except.error e
      | Except.ok (Json.arr entries) =>
        match applyEntries results entries with
        | Except.error e => Except.error e
        | Except.ok r2 =>
          runBatches oracle rows title_col abstract_col context_text batch_size rest r2
      | Except.ok _ => Except.error errNotAList

/-- `get_filtered_data(rows, title_col, abstract_col, context_text,
batch_size)`: run the batches over `range(0, len(rows), batch_size)`
starting from an empty results dict. -/
def get_filtered_data (oracle : List Char → Nat → AttemptResult) (rows : List Row)
    (title_col abstract_col context_text : List Char) (batch_size : Nat) :
    Except (List Char) ResultMap :=
  if batch_size = 0 then Except.error errBatchZero
  else
    runBatches oracle rows title_col abstract_col context_text batch_size
      (List.range' 0 ((rows.length + batch_size - 1) / batch_size) batch_size) []

/-- The batch partition produced by the loop header of
`get_filtered_data`: the slice `rows[start:start+B]` for each start in
`range(0, len(rows), B)`. -/
def getBatches {α : Type} (rows : List α) (B : Nat) : List (List α) :=
  (List.range' 0 ((rows.length + B - 1) / B) B).map (fun start => (rows.drop start).take B)

/-- One finalized output row: the original record columns, the TEST value
merged in, and the REASON value when the merged dict carried that key
(the default dict for a missing index has no REASON key). -/
structure OutRow where
  orig : Row
  TEST : List Char
  REASON : Option Json

/-- The finalization loop of `process`: `results.get(i)` with default
`\x7bTEST: INCLUDE\x7d` for every enumerated row. -/
def finalizeFrom (results : ResultMap) : Nat → List Row → List OutRow
  | _, [] => []
  | i, r :: rest =>
    (match dictGet? results (Int.ofNat i) with
     | some v => OutRow.mk r v.TEST (some v.REASON)
     | none => OutRow.mk r sINCLUDE none) :: finalizeFrom results (i + 1) rest

/-- All finalized rows, in the original dataset order. -/
def finalizeRows (rows : List Row) (results : ResultMap) : List OutRow :=
  finalizeFrom results 0 rows

/-- Rows written to `included.csv`: TEST equals "INCLUDE". -/
def includedRows (rows : List Row) (results : ResultMap) : List OutRow :=
  (finalizeRows rows results).filter (fun r => decide (r.TEST = sINCLUDE))

/-- Rows written to `excluded.csv`: TEST equals "EXCLUDE". -/
def excludedRows (rows : List Row) (results : ResultMap) : List OutRow :=
  (finalizeRows rows results).filter (fun r => decide (r.TEST = sEXCLUDE))

/-- The label an excluded row contributes to the reason breakdown:
`fillna` maps a missing REASON to UNKNOWN and `replace` maps the empty
string to UNKNOWN; other values count as themselves. -/
def reasonLabel : Option Json → List Char
  | none => chars ("UNKNOWN")
  | some (Json.str []) => chars ("UNKNOWN")
  | some (Json.str s) => s
  | some j => pyStr j

/-- Increment one key of a counting dict. -/
def bump (counts : List (List Char × Nat)) (k : List Char) : List (List Char × Nat) :=
  if List.any counts (fun kv => decide (kv.1 = k)) then
    List.map (fun kv => if kv.1 = k then (kv.1, kv.2 + 1) else kv) counts
  else counts ++ [(k, 1)]

/-- `value_counts` of the excluded REASON column (as a counting dict in
first-appearance order; the source additionally sorts by frequency for
display, which no property here depends on). -/
def reasonCounts (excluded : List OutRow) : List (List Char × Nat) :=
  excluded.foldl (fun acc r => bump acc (reasonLabel r.REASON)) []

/-- What `process` writes at run end: the two CSV row sets and the
summary-log numbers.  Producing this value models a completed run whose
reports were written; an `Except.error` models an exception that escaped
`process` before any file was written. -/
structure ProcessOutput where
  included : List OutRow
  excluded : List OutRow
  total_included : Nat
  total_excluded : Nat
  reason_counts : List (List Char × Nat)

/-- `process(input_csv, context_text, batch_size, out_dir)` after the
pandas read: screen all rows, then finalize with the fail-open default
and split into the included and excluded row sets.  Column detection and
the writes themselves are upstream and downstream I O, modelled by the
`title_col` and `abstract_col` parameters and by the returned value. -/
def process (oracle : List Char → Nat → AttemptResult) (rows : List Row)
    (title_col abstract_col context_text : List Char) (batch_size : Nat) :
    Except (List Char) ProcessOutput :=
  match get_filtered_data oracle rows title_col abstract_col context_text batch_size with
  | Except.error e => Except.error e
  | Except.ok results =>
    Except.ok (ProcessOutput.mk (includedRows rows results) (excludedRows rows results)
      (includedRows rows results).length (excludedRows rows results).length
      (reasonCounts (excludedRows rows results)))

/-- Message of the `SystemExit` raised when the context condition fails. -/
def errCtxMissing : List Char :=
  chars ("Either --context-file (existing) or --context-text must be provided.")

/-- Message of the `SystemExit` raised when the cleaned CSV is missing. -/
def errInputMissing : List Char := chars ("Input cleaned CSV not found")

/-- `filter_papers_gemini(folder_name, context, batch_size, out_dir)`:
the source proceeds only when `context is None` and the default context
file exists (reading the context from that file); every other
combination — including a supplied literal context string — raises
`SystemExit` with `errCtxMissing`.  File existence and the file text are
explicit parameters; the input CSV rows stand for the file the path
check guards. -/
def filter_papers_gemini (oracle : List Char → Nat → AttemptResult) (rows : List Row)
    (title_col abstract_col : List Char) (context : Option (List Char))
    (defaultContextFileExists : Bool) (defaultContextContent : List Char)
    (inputCsvExists : Bool) (batch_size : Nat) : Except (List Char) ProcessOutput :=
  match context, defaultContextFileExists with
  | none, true =>
    if inputCsvExists then
      process oracle rows title_col abstract_col defaultContextContent batch_size
    else Except.error errInputMissing
  | _, _ => Except.error errCtxMissing

/-- The integer coerced from the `index` field of a parsed entry, when
that coercion succeeds (the source of every key the reconciler writes). -/
def entryIndex (e : Json) : Option Int :=
  match jsonGet e idxKey Json.null with
  | Except.ok v =>
    match pyInt v with
    | Except.ok n => some n
    | Except.error _ => none
  | Except.error _ => none

/-- Does some entry of the parsed batch carry the given coerced index? -/
def hasEntryIndex (k : Int) : JsonList → Bool
  | JsonList.nil => false
  | JsonList.cons e tl => decide (entryIndex e = some k) || hasEntryIndex k tl

/-- Invariant of every ResultMap the screening loop produces: each stored
TEST is literally "INCLUDE" or "EXCLUDE". -/
def goodVerdicts (m : ResultMap) : Prop :=
  ∀ kv ∈ m, kv.2.TEST = sINCLUDE ∨ kv.2.TEST = sEXCLUDE

/-- The title column name of the concrete test dataset. -/
def titleCol : List Char := chars ("Title")

/-- The abstract column name of the concrete test dataset. -/
def abstractCol : List Char := chars ("Abstract")

/-- One concrete CSV row. -/
def row0 : Row := [(titleCol, chars ("Paper A")), (abstractCol, chars ("About A"))]

/-- A one-row dataset. -/
def rows1 : List Row := [row0]

/-- A three-row dataset. -/
def rows3 : List Row := [row0, row0, row0]

/-- A concrete screening context. -/
def ctx1 : List Char := chars ("screening context")

/-- The verdict stored for a plain INCLUDE entry. -/
def vInc : Verdict := Verdict.mk sINCLUDE (Json.str [])

/-- The verdict stored for an EXCLUDE entry with reason TOPIC. -/
def vExc : Verdict := Verdict.mk sEXCLUDE (Json.str (chars ("TOPIC")))

/-- A parsed entry whose index field is the non-numeric string "abc". -/
def badEntry : Json :=
  Json.obj (JsonKVs.cons idxKey (Json.str (chars ("abc")))
    (JsonKVs.cons testKey (Json.str sINCLUDE) JsonKVs.nil))

/-- A well-formed INCLUDE entry for index 0. -/
def goodEntry0 : Json :=
  Json.obj (JsonKVs.cons idxKey (Json.num 0)
    (JsonKVs.cons testKey (Json.str sINCLUDE) JsonKVs.nil))

/-- A well-formed EXCLUDE entry for index 2 with reason TOPIC. -/
def goodEntry2 : Json :=
  Json.obj (JsonKVs.cons idxKey (Json.num 2)
    (JsonKVs.cons testKey (Json.str sEXCLUDE)
      (JsonKVs.cons reasonKey (Json.str (chars ("TOPIC"))) JsonKVs.nil)))

/-- A well-formed INCLUDE entry for index 7. -/
def entryIdx7 : Json :=
  Json.obj (JsonKVs.cons idxKey (Json.num 7)
    (JsonKVs.cons testKey (Json.str sINCLUDE) JsonKVs.nil))

/-- A well-formed INCLUDE entry for index 5. -/
def entryIdx5I : Json :=
  Json.obj (JsonKVs.cons idxKey (Json.num 5)
    (JsonKVs.cons testKey (Json.str sINCLUDE) JsonKVs.nil))

/-- A model response whose middle entry has the malformed index "abc". -/
def rawC3 : List Char :=
  chars ("[\x7b\"index\":0,\"TEST\":\"INCLUDE\"\x7d,\x7b\"index\":\"abc\",\"TEST\":\"INCLUDE\"\x7d,\x7b\"index\":2,\"TEST\":\"EXCLUDE\",\"REASON\":\"TOPIC\"\x7d]")

/-- A model response that names index 5 twice (INCLUDE then EXCLUDE) for
a dataset that only contains row 0. -/
def rawC9 : List Char :=
  chars ("[\x7b\"index\":5,\"TEST\":\"INCLUDE\"\x7d,\x7b\"index\":5,\"TEST\":\"EXCLUDE\",\"REASON\":\"TOPIC\"\x7d]")

/-- Ceiling-division recurrence used to peel one batch off the front. -/
theorem ceil_div_succ {L B : Nat} (hB : 0 < B) (hL : 0 < L) :
    (L + B - 1) / B = ((L - B) + B - 1) / B + 1 := by
  have h1 : L + B - 1 = (L - 1) + B := by omega
  rw [h1, Nat.add_div_right _ hB]
  rcases Nat.lt_or_ge L B with h | h
  · have h0 : L - B = 0 := by omega
    rw [h0]
    have h2 : (L - 1) / B = 0 := Nat.div_eq_of_lt (by omega)
    have h3 : (0 + B - 1) / B = 0 := Nat.div_eq_of_lt (by omega)
    omega
  · have h0 : L - B + B - 1 = L - 1 := by omega
    rw [h0]

/-- The partition of the empty dataset is empty. -/
theorem getBatches_nil {α : Type} (B : Nat) : getBatches ([] : List α) B = [] := by
  rcases Nat.eq_zero_or_pos B with h | h
  · subst h
    simp [getBatches]
  · unfold getBatches
    have h0 : (List.length ([] : List α) + B - 1) / B = 0 := by
      rw [List.length_nil]
      exact Nat.div_eq_of_lt (by omega)
    rw [h0]
    simp

/-- Peeling the first batch: a nonempty dataset splits as its first
slice followed by the partition of the rest. -/
theorem getBatches_cons {α : Type} {B : Nat} (hB : 0 < B) (rows : List α) (h : rows ≠ []) :
    getBatches rows B = rows.take B :: getBatches (rows.drop B) B := by
  have hL : 0 < rows.length := List.length_pos.mpr h
  unfold getBatches
  rw [List.length_drop, ceil_div_succ hB hL, List.range'_succ]
  rw [List.map_cons, List.drop_zero]
  congr 1
  have hshift : List.range' (0 + B) ((rows.length - B + B - 1) / B) B =
      List.map (fun x => B + x) (List.range' 0 ((rows.length - B + B - 1) / B) B) := by
    rw [List.map_add_range']
    rw [Nat.zero_add, Nat.add_zero]
  rw [hshift, List.map_map]
  apply List.map_congr_left
  intro s _
  simp only [Function.comp]
  rw [← List.drop_drop]

/-- Concatenating all batches gives back the dataset. -/
theorem getBatches_join {α : Type} {B : Nat} (hB : 0 < B) (rows : List α) :
    (getBatches rows B).flatten = rows := by
  generalize hL : rows.length = L
  induction L using Nat.strongRecOn generalizing rows with
  | ind L ih =>
    by_cases h : rows = []
    · subst h
      simp [getBatches_nil]
    · rw [getBatches_cons hB rows h, List.flatten_cons]
      have hlt : (rows.drop B).length < L := by
        rw [List.length_drop]
        have := List.length_pos.mpr h
        omega
      rw [ih _ hlt _ rfl, List.take_append_drop]

/-- The number of batches is the ceiling of length over batch size. -/
theorem getBatches_count {α : Type} (rows : List α) (B : Nat) :
    (getBatches rows B).length = (rows.length + B - 1) / B := by
  unfold getBatches
  rw [List.length_map, List.length_range']

/-- Every batch has at most B records. -/
theorem getBatches_le {α : Type} (rows : List α) (B : Nat) :
    ∀ b ∈ getBatches rows B, b.length ≤ B := by
  intro b hb
  unfold getBatches at hb
  rw [List.mem_map] at hb
  obtain ⟨s, _, rfl⟩ := hb
  rw [List.length_take]
  omega

/-- Batch k is the slice starting at offset k * B. -/
theorem getBatches_get? {α : Type} (rows : List α) (B k : Nat)
    (hk : k < (rows.length + B - 1) / B) :
    (getBatches rows B)[k]? = some ((rows.drop (k * B)).take B) := by
  unfold getBatches
  rw [List.getElem?_map, List.getElem?_range' 0 B hk]
  simp [Nat.mul_comm]

/-- Every batch before the last has exactly B records. -/
theorem getBatches_full {α : Type} {B : Nat} (hB : 0 < B) (rows : List α) (k : Nat)
    (hk : k + 1 < (rows.length + B - 1) / B) :
    ((rows.drop (k * B)).take B).length = B := by
  rw [List.length_take, List.length_drop]
  have h1 : k * B + 2 * B ≤ rows.length + B - 1 := by
    have h2 : (k + 2) * B ≤ rows.length + B - 1 :=
      (Nat.le_div_iff_mul_le hB).mp (by omega)
    calc k * B + 2 * B = (k + 2) * B := by ring
      _ ≤ rows.length + B - 1 := h2
  obtain ⟨K, hK⟩ : ∃ K, k * B = K := ⟨_, rfl⟩
  rw [hK] at h1 ⊢
  omega

/-- C7: for every input of length L and batch size B > 0 the partitioner
yields exactly ceil(L / B) contiguous non-overlapping batches in order,
each of length at most B with only the last shorter, concatenation
reproduces the input, and element i of batch k is dataset element
k * B + i, so each record keeps its 0-based index. -/
theorem c7_partition_complete {α : Type} (rows : List α) (B : Nat) (hB : 0 < B) :
    (getBatches rows B).length = (rows.length + B - 1) / B ∧
    (getBatches rows B).flatten = rows ∧
    (∀ b ∈ getBatches rows B, b.length ≤ B) ∧
    (∀ k, k + 1 < (getBatches rows B).length →
      ∃ b, (getBatches rows B)[k]? = some b ∧ b.length = B) ∧
    (∀ k i, k < (getBatches rows B).length → i < B →
      ∃ b, (getBatches rows B)[k]? = some b ∧ b[i]? = rows[k * B + i]?) := by
  refine ⟨getBatches_count rows B, getBatches_join hB rows, getBatches_le rows B, ?_, ?_⟩
  · intro k hk
    rw [getBatches_count] at hk
    exact ⟨_, getBatches_get? rows B k (by omega), getBatches_full hB rows k hk⟩
  · intro k i hk hi
    rw [getBatches_count] at hk
    refine ⟨_, getBatches_get? rows B k hk, ?_⟩
    rw [List.getElem?_take, if_pos hi, List.getElem?_drop]

/-- Looking up an updated key finds the new binding. -/
theorem find?_map_update (m : ResultMap) (k : Int) (v : Verdict)
    (h : List.any m (fun kv => decide (kv.1 = k)) = true) :
    List.find? (fun kv => decide (kv.1 = k))
      (List.map (fun kv => if kv.1 = k then (k, v) else kv) m) = some (k, v) := by
  induction m with
  | nil => simp at h
  | cons kv rest ih =>
    by_cases hk : kv.1 = k
    · simp [hk]
    · have h2 : List.any rest (fun kv => decide (kv.1 = k)) = true := by
        simp [List.any_cons, hk] at h
        simpa using h
      rw [List.map_cons, if_neg hk, List.find?_cons_of_neg _ (by simp [hk]), ih h2]

/-- Looking up an appended fresh key finds the new binding. -/
theorem find?_append_not_found (m : ResultMap) (k : Int) (v : Verdict)
    (h : List.any m (fun kv => decide (kv.1 = k)) = false) :
    List.find? (fun kv => decide (kv.1 = k)) (m ++ [(k, v)]) = some (k, v) := by
  induction m with
  | nil => simp
  | cons kv rest ih =>
    rw [List.any_cons] at h
    have h1 : ¬ (kv.1 = k) := by
      intro hc
      simp [hc] at h
    have h2 : List.any rest (fun kv => decide (kv.1 = k)) = false := by
      rcases Bool.or_eq_false_iff.mp h with ⟨_, hr⟩
      exact hr
    rw [List.cons_append, List.find?_cons_of_neg _ (by simp [h1]), ih h2]

/-- A dict store makes the stored value visible at its key. -/
theorem dictGet?_insert_self (m : ResultMap) (k : Int) (v : Verdict) :
    dictGet? (dictInsert m k v) k = some v := by
  unfold dictInsert
  split
  · next h =>
    unfold dictGet?
    rw [find?_map_update m k v h]
    rfl
  · next h =>
    unfold dictGet?
    have hfalse : List.any m (fun kv => decide (kv.1 = k)) = false := by
      revert h
      cases List.any m (fun kv => decide (kv.1 = k)) <;> simp
    rw [find?_append_not_found m k v hfalse]
    rfl

/-- Updating one key leaves lookups of other keys unchanged. -/
theorem find?_map_update_ne (m : ResultMap) (k k2 : Int) (v : Verdict) (hne : k2 ≠ k) :
    List.find? (fun kv => decide (kv.1 = k2))
        (List.map (fun kv => if kv.1 = k then (k, v) else kv) m) =
      List.find? (fun kv => decide (kv.1 = k2)) m := by
  induction m with
  | nil => rfl
  | cons kv rest ih =>
    by_cases hk : kv.1 = k
    · rw [List.map_cons, if_pos hk, List.find?_cons_of_neg _ (by simp [Ne.symm hne]),
        List.find?_cons_of_neg _ (by simp [hk, Ne.symm hne]), ih]
    · rw [List.map_cons, if_neg hk]
      by_cases h2 : kv.1 = k2
      · rw [List.find?_cons_of_pos _ (by simp [h2]), List.find?_cons_of_pos _ (by simp [h2])]
      · rw [List.find?_cons_of_neg _ (by simp [h2]), List.find?_cons_of_neg _ (by simp [h2]), ih]

/-- A dict store leaves every other key unchanged. -/
theorem dictGet?_insert_ne (m : ResultMap) (k k2 : Int) (v : Verdict) (hne : k2 ≠ k) :
    dictGet? (dictInsert m k v) k2 = dictGet? m k2 := by
  unfold dictInsert
  split
  · unfold dictGet?
    rw [find?_map_update_ne m k k2 v hne]
  · unfold dictGet?
    rw [List.find?_append]
    have h1 : List.find? (fun kv => decide (kv.1 = k2)) [(k, v)] = none := by
      simp [List.find?, Ne.symm hne]
    rw [h1]
    simp

/-- A successful reconciliation of one entry stores exactly one verdict,
at the integer coerced from the index field the model supplied, and the
stored TEST is INCLUDE or EXCLUDE. -/
theorem reconcileEntry_ok_shape (m : ResultMap) (e : Json) (m2 : ResultMap)
    (h : reconcileEntry m e = Except.ok m2) :
    ∃ idx v, entryIndex e = some idx ∧ m2 = dictInsert m idx v ∧
      (v.TEST = sINCLUDE ∨ v.TEST = sEXCLUDE) := by
  unfold reconcileEntry at h
  cases hg : jsonGet e idxKey Json.null with
  | error err => simp [hg] at h
  | ok idxv =>
    simp only [hg] at h
    cases hp : pyInt idxv with
    | error err => simp [hp] at h
    | ok idx =>
      simp only [hp] at h
      cases ht : jsonGet e testKey (Json.str []) with
      | error err => simp [ht] at h
      | ok testv =>
        simp only [ht] at h
        cases hr : (if pyUpper (pyStr testv) = sEXCLUDE then jsonGet e reasonKey (Json.str [])
            else Except.ok (Json.str [])) with
        | error err => simp [hr] at h
        | ok reason =>
          simp only [hr, Except.ok.injEq] at h
          refine ⟨idx,
            Verdict.mk (if pyUpper (pyStr testv) = sINCLUDE then sINCLUDE else sEXCLUDE) reason,
            ?_, h.symm, ?_⟩
          · simp only [entryIndex, hg, hp]
          · by_cases hc : pyUpper (pyStr testv) = sINCLUDE
            · left
              simp [hc]
            · right
              simp [hc]

/-- Any key whose binding a batch changes is the coerced index field of
some entry of that batch (the model controls every key). -/
theorem applyEntries_new_keys (k : Int) : ∀ (es : JsonList) (m m2 : ResultMap),
    applyEntries m es = Except.ok m2 →
    dictGet? m2 k ≠ dictGet? m k → hasEntryIndex k es = true
  | JsonList.nil, m, m2, h, hne => by
    unfold applyEntries at h
    simp only [Except.ok.injEq] at h
    exact absurd (by rw [h]) hne
  | JsonList.cons e tl, m, m2, h, hne => by
    unfold applyEntries at h
    cases hr : reconcileEntry m e with
    | error err => simp [hr] at h
    | ok m1 =>
      simp only [hr] at h
      obtain ⟨idx, v, hidx, hm1, _⟩ := reconcileEntry_ok_shape m e m1 hr
      unfold hasEntryIndex
      by_cases hk : entryIndex e = some k
      · simp [hk]
      · have hik : k ≠ idx := by
          intro hc
          apply hk
          rw [hidx, hc]
        have hsame : dictGet? m1 k = dictGet? m k := by
          rw [hm1]
          exact dictGet?_insert_ne m idx k v hik
        have hne2 : dictGet? m2 k ≠ dictGet? m1 k := by
          rw [hsame]
          exact hne
        simp [applyEntries_new_keys k tl m1 m2 h hne2]

/-- Storing an INCLUDE or EXCLUDE verdict preserves the TEST invariant. -/
theorem goodVerdicts_insert (m : ResultMap) (k : Int) (v : Verdict)
    (hm : goodVerdicts m) (hv : v.TEST = sINCLUDE ∨ v.TEST = sEXCLUDE) :
    goodVerdicts (dictInsert m k v) := by
  unfold dictInsert
  split
  · intro kv hkv
    rw [List.mem_map] at hkv
    obtain ⟨kv0, hkv0, heq⟩ := hkv
    by_cases h : kv0.1 = k
    · rw [if_pos h] at heq
      rw [← heq]
      exact hv
    · rw [if_neg h] at heq
      rw [← heq]
      exact hm kv0 hkv0
  · intro kv hkv
    rw [List.mem_append] at hkv
    rcases hkv with h | h
    · exact hm kv h
    · simp only [List.mem_singleton] at h
      rw [h]
      exact hv

/-- The reconciler loop preserves the TEST invariant. -/
theorem applyEntries_good : ∀ (es : JsonList) (m m2 : ResultMap),
    applyEntries m es = Except.ok m2 → goodVerdicts m → goodVerdicts m2
  | JsonList.nil, m, m2, h, hm => by
    unfold applyEntries at h
    simp only [Except.ok.injEq] at h
    rw [← h]
    exact hm
  | JsonList.cons e tl, m, m2, h, hm => by
    unfold applyEntries at h
    cases hr : reconcileEntry m e with
    | error err => simp [hr] at h
    | ok m1 =>
      simp only [hr] at h
      obtain ⟨idx, v, _, hm1, hv⟩ := reconcileEntry_ok_shape m e m1 hr
      exact applyEntries_good tl m1 m2 h (hm1 ▸ goodVerdicts_insert m idx v hm hv)

/-- The batch loop preserves the TEST invariant. -/
theorem runBatches_good (oracle : List Char → Nat → AttemptResult) (rows : List Row)
    (tc ac ctx : List Char) (B : Nat) :
    ∀ (starts : List Nat) (m m2 : ResultMap),
      runBatches oracle rows tc ac ctx B starts m = Except.ok m2 →
      goodVerdicts m → goodVerdicts m2 := by
  intro starts
  induction starts with
  | nil =>
    intro m m2 h hm
    unfold runBatches at h
    simp only [Except.ok.injEq] at h
    rw [← h]
    exact hm
  | cons s rest ih =>
    intro m m2 h hm
    unfold runBatches at h
    cases hc : call_model (oracle (build_prompt ctx (mkItemsFrom tc ac s 0 ((rows.drop s).take B)))) with
    | raised e =>
      simp only [hc] at h
      simp only [Except.ok.injEq] at h
      rw [← h]
      exact hm
    | noneReturn => simp [hc] at h
    | text raw =>
      simp only [hc] at h
      cases hx : extract_json_array raw with
      | error e => simp [hx] at h
      | ok j =>
        simp only [hx] at h
        cases j with
        | arr entries =>
          cases ha : applyEntries m entries with
          | error e => simp [ha] at h
          | ok m1 =>
            simp only [ha] at h
            exact ih m1 m2 h (applyEntries_good entries m m1 ha hm)
        | null => simp at h
        | bool b => simp at h
        | num n => simp at h
        | str s2 => simp at h
        | obj kvs => simp at h

/-- Every ResultMap a run produces satisfies the TEST invariant. -/
theorem get_filtered_data_good (oracle : List Char → Nat → AttemptResult) (rows : List Row)
    (tc ac ctx : List Char) (B : Nat) (results : ResultMap)
    (h : get_filtered_data oracle rows tc ac ctx B = Except.ok results) :
    goodVerdicts results := by
  unfold get_filtered_data at h
  split at h
  · simp at h
  · refine runBatches_good oracle rows tc ac ctx B _ [] results h ?_
    intro kv hkv
    simp at hkv

/-- Finalization keeps exactly the original rows, in order. -/
theorem finalizeFrom_map_orig (results : ResultMap) :
    ∀ (rows : List Row) (i : Nat),
      (finalizeFrom results i rows).map (fun r => r.orig) = rows := by
  intro rows
  induction rows with
  | nil => intro i; rfl
  | cons r rest ih =>
    intro i
    unfold finalizeFrom
    cases hd : dictGet? results (Int.ofNat i) with
    | some v => simp [ih (i + 1)]
    | none => simp [ih (i + 1)]

/-- Every finalized TEST value is INCLUDE or EXCLUDE when the map
satisfies the invariant. -/
theorem finalizeFrom_good (results : ResultMap) (hg : goodVerdicts results) :
    ∀ (rows : List Row) (i : Nat) (r : OutRow), r ∈ finalizeFrom results i rows →
      r.TEST = sINCLUDE ∨ r.TEST = sEXCLUDE := by
  intro rows
  induction rows with
  | nil =>
    intro i r hr
    simp [finalizeFrom] at hr
  | cons row rest ih =>
    intro i r hr
    unfold finalizeFrom at hr
    rw [List.mem_cons] at hr
    rcases hr with h | h
    · cases hd : dictGet? results (Int.ofNat i) with
      | some v =>
        rw [hd] at h
        have hv : ∃ kv, List.find? (fun kv => decide (kv.1 = Int.ofNat i)) results = some kv ∧ kv.2 = v := by
          unfold dictGet? at hd
          cases hf : List.find? (fun kv => decide (kv.1 = Int.ofNat i)) results with
          | none => rw [hf] at hd; simp at hd
          | some kv =>
            rw [hf] at hd
            simp only [Option.map_some'] at hd
            exact ⟨kv, rfl, by injection hd⟩
        obtain ⟨kv, hfind, hkv⟩ := hv
        have hmem := List.mem_of_find?_eq_some hfind
        rw [h]
        simp only []
        rw [← hkv]
        exact hg kv hmem
      | none =>
        rw [hd] at h
        rw [h]
        left
        rfl
    · exact ih (i + 1) r h

/-- Rows whose TEST is INCLUDE or EXCLUDE are split without loss between
the two filters. -/
theorem filter_length_partition (l : List OutRow)
    (h : ∀ r ∈ l, r.TEST = sINCLUDE ∨ r.TEST = sEXCLUDE) :
    (l.filter (fun r => decide (r.TEST = sINCLUDE))).length +
      (l.filter (fun r => decide (r.TEST = sEXCLUDE))).length = l.length := by
  induction l with
  | nil => rfl
  | cons r rest ih =>
    have hr := h r (List.mem_cons_self r rest)
    have hrest : ∀ x ∈ rest, x.TEST = sINCLUDE ∨ x.TEST = sEXCLUDE :=
      fun x hx => h x (List.mem_cons_of_mem r hx)
    have hsum := ih hrest
    have hIE : ¬ (sINCLUDE = sEXCLUDE) := by decide
    have hEI : ¬ (sEXCLUDE = sINCLUDE) := by decide
    rcases hr with h1 | h1
    · have e2 : ¬ (r.TEST = sEXCLUDE) := by
        rw [h1]
        decide
      simp [List.filter_cons, h1, e2, hIE, hEI]
      omega
    · have e2 : ¬ (r.TEST = sINCLUDE) := by
        rw [h1]
        decide
      simp [List.filter_cons, h1, e2, hIE, hEI]
      omega

/-- Finalization only consults the map at the enumerated row indices. -/
theorem finalizeFrom_agree (m m2 : ResultMap) :
    ∀ (rows : List Row) (i : Nat),
      (∀ j, j < rows.length → dictGet? m (Int.ofNat (i + j)) = dictGet? m2 (Int.ofNat (i + j))) →
      finalizeFrom m i rows = finalizeFrom m2 i rows := by
  intro rows
  induction rows with
  | nil => intro i h; rfl
  | cons r rest ih =>
    intro i h
    unfold finalizeFrom
    have h0 := h 0 (by simp)
    rw [Nat.add_zero] at h0
    rw [h0]
    congr 1
    apply ih (i + 1)
    intro j hj
    have hs := h (j + 1) (by simpa using Nat.succ_lt_succ hj)
    have harith : i + (j + 1) = i + 1 + j := by omega
    rw [harith] at hs
    exact hs

/-- The finalized row at position k merges row k with the lookup at key
i + k. -/
theorem finalizeFrom_get? (results : ResultMap) :
    ∀ (rows : List Row) (i k : Nat),
      (finalizeFrom results i rows)[k]? = (rows[k]?).map (fun r =>
        match dictGet? results (Int.ofNat (i + k)) with
        | some v => OutRow.mk r v.TEST (some v.REASON)
        | none => OutRow.mk r sINCLUDE none) := by
  intro rows
  induction rows with
  | nil => intro i k; simp [finalizeFrom]
  | cons r rest ih =>
    intro i k
    cases k with
    | zero =>
      unfold finalizeFrom
      simp
    | succ k =>
      unfold finalizeFrom
      simp only [List.getElem?_cons_succ]
      rw [ih (i + 1) k]
      have harith : i + (k + 1) = i + 1 + k := by omega
      rw [harith]

/-- With an empty ResultMap every row defaults to INCLUDE with no REASON. -/
theorem finalizeFrom_nil_results : ∀ (rows : List Row) (i : Nat),
    finalizeFrom [] i rows = rows.map (fun r => OutRow.mk r sINCLUDE none) := by
  intro rows
  induction rows with
  | nil => intro i; rfl
  | cons r rest ih =>
    intro i
    unfold finalizeFrom
    rw [ih (i + 1)]
    rfl

/-- With an empty ResultMap the included file holds every row. -/
theorem includedRows_nil_results (rows : List Row) :
    includedRows rows [] = rows.map (fun r => OutRow.mk r sINCLUDE none) := by
  unfold includedRows finalizeRows
  rw [finalizeFrom_nil_results rows 0]
  rw [List.filter_eq_self]
  intro a ha
  rw [List.mem_map] at ha
  obtain ⟨r, _, hr⟩ := ha
  rw [← hr]
  simp

/-- With an empty ResultMap the excluded file is empty. -/
theorem excludedRows_nil_results (rows : List Row) :
    excludedRows rows [] = [] := by
  unfold excludedRows finalizeRows
  rw [finalizeFrom_nil_results rows 0]
  rw [List.filter_eq_nil_iff]
  intro a ha
  rw [List.mem_map] at ha
  obtain ⟨r, _, hr⟩ := ha
  rw [← hr]
  simp
  decide

/-- C8: a record whose index is absent from the ResultMap after all
batches finalizes to INCLUDE with no REASON value and appears in the
included rows. -/
theorem c8_fail_open (rows : List Row) (results : ResultMap) (i : Nat)
    (h : i < rows.length) (habs : dictGet? results (Int.ofNat i) = none) :
    (finalizeRows rows results)[i]? = some (OutRow.mk (rows.get ⟨i, h⟩) sINCLUDE none) ∧
    OutRow.mk (rows.get ⟨i, h⟩) sINCLUDE none ∈ includedRows rows results := by
  have h1 : (finalizeRows rows results)[i]? =
      some (OutRow.mk (rows.get ⟨i, h⟩) sINCLUDE none) := by
    unfold finalizeRows
    rw [finalizeFrom_get? results rows 0 i]
    have habs2 : dictGet? results ((i : Nat) : Int) = none := habs
    simp [habs, habs2, List.getElem?_eq_getElem h]
  refine ⟨h1, ?_⟩
  unfold includedRows
  rw [List.mem_filter]
  exact ⟨List.getElem?_mem h1, by simp⟩

/-- C10: for every ResultMap a screening run produces, finalization emits
exactly one output row per input record in the original order, the
included and excluded row sets together cover the dataset exactly, and
only lookups at indices 0..L-1 matter: maps agreeing there finalize
identically, so any verdict at an out-of-range index is ignored. -/
theorem c10_finalization_in_range (oracle : List Char → Nat → AttemptResult) (rows : List Row)
    (tc ac ctx : List Char) (B : Nat) (results : ResultMap)
    (h : get_filtered_data oracle rows tc ac ctx B = Except.ok results) :
    (finalizeRows rows results).map (fun r => r.orig) = rows ∧
    (includedRows rows results).length + (excludedRows rows results).length = rows.length ∧
    (∀ results2 : ResultMap,
      (∀ i : Nat, i < rows.length → dictGet? results2 (Int.ofNat i) = dictGet? results (Int.ofNat i)) →
      finalizeRows rows results2 = finalizeRows rows results) := by
  have hgood := get_filtered_data_good oracle rows tc ac ctx B results h
  refine ⟨finalizeFrom_map_orig results rows 0, ?_, ?_⟩
  · have hlen : (finalizeRows rows results).length = rows.length := by
      have h2 := congrArg List.length (finalizeFrom_map_orig results rows 0)
      simpa using h2
    unfold includedRows excludedRows
    rw [filter_length_partition (finalizeRows rows results)
      (fun r hr => finalizeFrom_good results hgood rows 0 r hr)]
    exact hlen
  · intro results2 hagree
    unfold finalizeRows
    apply finalizeFrom_agree
    intro j hj
    simpa using hagree j hj

/-- C1 (amended): a model-call failure on the first batch is caught at
the run-loop boundary and the run still finalizes, reporting every row
as INCLUDE; but a ParseError from the response parser propagates out of
the run as an exception, so no report is written.  The claim as stated
(ParseError caught, reports still written) is refuted by
the counterexample. -/
theorem c1_model_error_caught_parse_error_raised
    (oracle1 oracle2 : List Char → Nat → AttemptResult) (rows : List Row)
    (tc ac ctx : List Char) (B : Nat) (e1 raw e2 : List Char)
    (hB : 0 < B) (hrows : rows ≠ [])
    (h1 : call_model (oracle1 (build_prompt ctx (mkItemsFrom tc ac 0 0 ((rows.drop 0).take B)))) =
      CallOutcome.raised e1)
    (h2 : call_model (oracle2 (build_prompt ctx (mkItemsFrom tc ac 0 0 ((rows.drop 0).take B)))) =
      CallOutcome.text raw)
    (h3 : extract_json_array raw = Except.error e2) :
    process oracle1 rows tc ac ctx B =
      Except.ok (ProcessOutput.mk (rows.map (fun r => OutRow.mk r sINCLUDE none)) []
        rows.length 0 []) ∧
    process oracle2 rows tc ac ctx B = Except.error e2 := by
  have hL : 0 < rows.length := List.length_pos.mpr hrows
  obtain ⟨m, hm⟩ : ∃ m, (rows.length + B - 1) / B = m + 1 := by
    have hpos : 1 ≤ (rows.length + B - 1) / B :=
      (Nat.le_div_iff_mul_le hB).mpr (by omega)
    exact ⟨(rows.length + B - 1) / B - 1, by omega⟩
  have hgfd1 : get_filtered_data oracle1 rows tc ac ctx B = Except.ok [] := by
    unfold get_filtered_data
    rw [if_neg (by omega), hm, List.range'_succ]
    unfold runBatches
    simp only [h1]
  have hgfd2 : get_filtered_data oracle2 rows tc ac ctx B = Except.error e2 := by
    unfold get_filtered_data
    rw [if_neg (by omega), hm, List.range'_succ]
    unfold runBatches
    simp only [h2, h3]
  constructor
  · unfold process
    simp only [hgfd1]
    rw [includedRows_nil_results, excludedRows_nil_results]
    simp [reasonCounts]
  · unfold process
    simp only [hgfd2]

/-- C3 (amended): an entry whose index coercion raises makes the whole
batch loop raise at that entry: the entry is not skipped, later entries
of the batch are never applied, and the error propagates to the run. -/
theorem c3_malformed_index_aborts (m : ResultMap) (bad : Json) (rest : JsonList)
    (v : Json) (e : List Char)
    (hv : jsonGet bad idxKey Json.null = Except.ok v)
    (he : pyInt v = Except.error e) :
    reconcileEntry m bad = Except.error e ∧
    applyEntries m (JsonList.cons bad rest) = Except.error e := by
  have h1 : reconcileEntry m bad = Except.error e := by
    unfold reconcileEntry
    simp only [hv, he]
  refine ⟨h1, ?_⟩
  unfold applyEntries
  simp only [h1]

/-- Witness for C3 at an entry whose index field is the string "abc". -/
theorem c3_malformed_index_aborts_witness :
    jsonGet badEntry idxKey Json.null = Except.ok (Json.str (chars ("abc"))) ∧
    pyInt (Json.str (chars ("abc"))) = Except.error errIntLiteral ∧
    (reconcileEntry [] badEntry = Except.error errIntLiteral ∧
      applyEntries [] (JsonList.cons badEntry JsonList.nil) = Except.error errIntLiteral) :=
  ⟨rfl, rfl, c3_malformed_index_aborts [] badEntry JsonList.nil (Json.str (chars ("abc")))
    errIntLiteral rfl rfl⟩

/-- C3 counterexample: in a batch good-bad-good the reconciler raises at
the malformed middle entry, so the third entry is never applied and the
whole run errors, contrary to the claimed skip-and-continue. -/
theorem c3_counterexample :
    applyEntries [] (JsonList.cons goodEntry0 (JsonList.cons badEntry
      (JsonList.cons goodEntry2 JsonList.nil))) = Except.error errIntLiteral ∧
    get_filtered_data (fun _ _ => AttemptResult.ok rawC3) rows3 titleCol abstractCol ctx1 10 =
      Except.error errIntLiteral :=
  ⟨rfl, rfl⟩

/-- C5 (amended): whatever the error class, call_model retries: three
consecutive failures propagate the third (last) error, and an error on
the first attempt does not propagate when the second attempt succeeds. -/
theorem c5_all_errors_retried (oracle oracle2 : Nat → AttemptResult)
    (e0 e1 e2 f0 t : List Char)
    (h0 : oracle 0 = AttemptResult.err e0) (h1 : oracle 1 = AttemptResult.err e1)
    (h2 : oracle 2 = AttemptResult.err e2)
    (g0 : oracle2 0 = AttemptResult.err f0) (g1 : oracle2 1 = AttemptResult.ok t) :
    call_model oracle = CallOutcome.raised e2 ∧ call_model oracle2 = CallOutcome.text t := by
  constructor
  · unfold call_model
    simp [call_model_loop, MAX_RETRIES, h0, h1, h2]
  · unfold call_model
    simp [call_model_loop, MAX_RETRIES, g0, g1]

/-- Witness for C5 with a three-failure oracle and a fail-then-succeed
oracle. -/
theorem c5_all_errors_retried_witness :
    (fun n => AttemptResult.err (natToChars n)) 0 = AttemptResult.err (natToChars 0) ∧
    (fun n => AttemptResult.err (natToChars n)) 1 = AttemptResult.err (natToChars 1) ∧
    (fun n => AttemptResult.err (natToChars n)) 2 = AttemptResult.err (natToChars 2) ∧
    (fun n => if n = 0 then AttemptResult.err (chars ("socket closed"))
      else AttemptResult.ok (chars ("fine"))) 0 = AttemptResult.err (chars ("socket closed")) ∧
    (fun n => if n = 0 then AttemptResult.err (chars ("socket closed"))
      else AttemptResult.ok (chars ("fine"))) 1 = AttemptResult.ok (chars ("fine")) ∧
    (call_model (fun n => AttemptResult.err (natToChars n)) = CallOutcome.raised (natToChars 2) ∧
      call_model (fun n => if n = 0 then AttemptResult.err (chars ("socket closed"))
        else AttemptResult.ok (chars ("fine"))) = CallOutcome.text (chars ("fine"))) :=
  ⟨rfl, rfl, rfl, rfl, rfl,
    c5_all_errors_retried (fun n => AttemptResult.err (natToChars n))
      (fun n => if n = 0 then AttemptResult.err (chars ("socket closed"))
        else AttemptResult.ok (chars ("fine")))
      (natToChars 0) (natToChars 1) (natToChars 2) (chars ("socket closed")) (chars ("fine"))
      rfl rfl rfl rfl rfl⟩

/-- C5 counterexample: an error carrying neither the rate-limit nor the
unavailable marker is retried, not propagated on first occurrence: the
second attempt returns text, and with persistent errors the error
raised is the third, not the first. -/
theorem c5_counterexample :
    call_model (fun n => if n = 0 then AttemptResult.err (chars ("boom"))
      else AttemptResult.ok (chars ("hello"))) = CallOutcome.text (chars ("hello")) ∧
    isRateLimitErr (chars ("boom")) = false ∧
    isUnavailableErr (chars ("boom")) = false ∧
    call_model (fun n => AttemptResult.err (List.cons 'e' (natToChars n))) =
      CallOutcome.raised (List.cons 'e' (natToChars 2)) :=
  ⟨rfl, rfl, rfl, rfl⟩

/-- C6 (amended): the regex search is greedy: when the text has a bracket
pair, the snippet runs from the first opening bracket to the last
closing bracket and is then parsed; the spec example still extracts its
single array, and bracket-free text raises the no-JSON ValueError. -/
theorem c6_greedy_span (text : List Char) (i j : Nat)
    (hi : firstIndexOf '[' text = some i) (hj : lastIndexOf ']' text = some j) (hij : i < j) :
    extract_json_array text = parseSnippet ((text.drop i).take (j - i + 1)) ∧
    extract_json_array (chars ("noise [\x7b\"index\":0,\"TEST\":\"INCLUDE\"\x7d] trailing")) =
      Except.ok (Json.arr (JsonList.cons (Json.obj (JsonKVs.cons idxKey (Json.num 0)
        (JsonKVs.cons testKey (Json.str sINCLUDE) JsonKVs.nil))) JsonList.nil)) ∧
    extract_json_array (chars ("there is no bracket at all")) = Except.error errNoJson := by
  refine ⟨?_, rfl, rfl⟩
  unfold extract_json_array regexSpan
  simp [hi, hj, hij]

/-- Witness for C6 at the text ab[7]cd whose span is [7]. -/
theorem c6_greedy_span_witness :
    firstIndexOf '[' (chars ("ab[7]cd")) = some 2 ∧
    lastIndexOf ']' (chars ("ab[7]cd")) = some 4 ∧
    2 < 4 ∧
    (extract_json_array (chars ("ab[7]cd")) =
        parseSnippet (((chars ("ab[7]cd")).drop 2).take (4 - 2 + 1)) ∧
      extract_json_array (chars ("noise [\x7b\"index\":0,\"TEST\":\"INCLUDE\"\x7d] trailing")) =
        Except.ok (Json.arr (JsonList.cons (Json.obj (JsonKVs.cons idxKey (Json.num 0)
          (JsonKVs.cons testKey (Json.str sINCLUDE) JsonKVs.nil))) JsonList.nil)) ∧
      extract_json_array (chars ("there is no bracket at all")) = Except.error errNoJson) :=
  ⟨rfl, rfl, by decide, c6_greedy_span (chars ("ab[7]cd")) 2 4 rfl rfl (by decide)⟩

/-- C6 counterexample: for two disjoint arrays the greedy span covers
both arrays and the text between them, which is not valid JSON, so
extraction raises a decode error instead of returning the first array,
contrary to the claimed non-greedy (shortest) match. -/
theorem c6_counterexample :
    extract_json_array (chars ("[1] and [2]")) = Except.error errJsonDecode ∧
    json_loads (chars ("[1]")) = some (Json.arr (JsonList.cons (Json.num 1) JsonList.nil)) ∧
    json_loads (chars ("[2]")) = some (Json.arr (JsonList.cons (Json.num 2) JsonList.nil)) :=
  ⟨rfl, rfl, rfl⟩

/-- C4 (amended): TEST is upper-cased before comparison, so any value
whose upper-case form is INCLUDE (including lowercase "include") stores
an INCLUDE verdict, and everything else stores EXCLUDE. -/
theorem c4_case_normalization (m : ResultMap) (idx : Int) (s : List Char) :
    reconcileEntry m (Json.obj (JsonKVs.cons idxKey (Json.num idx)
        (JsonKVs.cons testKey (Json.str s) JsonKVs.nil))) =
      Except.ok (dictInsert m idx
        (Verdict.mk (if pyUpper s = sINCLUDE then sINCLUDE else sEXCLUDE) (Json.str []))) := by
  have hk1 : (testKey = idxKey) = False := by simp [testKey, idxKey, chars]
  have hk4 : (testKey = reasonKey) = False := by simp [testKey, reasonKey, chars]
  have hk5 : (idxKey = testKey) = False := by simp [testKey, idxKey, chars]
  have hk6 : (idxKey = reasonKey) = False := by simp [idxKey, reasonKey, chars]
  simp [reconcileEntry, jsonGet, kvsFindLast, pyInt, pyStr, hk1, hk4, hk5, hk6]

/-- C4 counterexample: the entry with lowercase TEST "include" stores an
INCLUDE verdict, not the EXCLUDE the claim asserts, because upper-casing
happens before the comparison. -/
theorem c4_counterexample :
    reconcileEntry [] (Json.obj (JsonKVs.cons idxKey (Json.num 0)
        (JsonKVs.cons testKey (Json.str (chars ("include"))) JsonKVs.nil))) =
      Except.ok [(0, Verdict.mk sINCLUDE (Json.str []))] ∧
    pyUpper (chars ("include")) = sINCLUDE :=
  ⟨rfl, rfl⟩

/-- C2: supplying a literal context string makes filter_papers_gemini
raise the SystemExit whose own message says a literal context should
suffice, whether or not the default context file exists; the run only
proceeds when no context is supplied and the default file exists.  This
contradicts the code intent stated by its own error message. -/
theorem c2_literal_context_fatal :
    filter_papers_gemini (fun _ _ => AttemptResult.err (chars ("never called"))) rows1
        titleCol abstractCol (some (chars ("a literal screening context"))) true ctx1 true 10 =
      Except.error errCtxMissing ∧
    filter_papers_gemini (fun _ _ => AttemptResult.err (chars ("never called"))) rows1
        titleCol abstractCol (some (chars ("a literal screening context"))) false ctx1 true 10 =
      Except.error errCtxMissing ∧
    filter_papers_gemini (fun _ _ => AttemptResult.err (chars ("never called"))) rows1
        titleCol abstractCol none true ctx1 true 10 =
      process (fun _ _ => AttemptResult.err (chars ("never called"))) rows1
        titleCol abstractCol ctx1 10 :=
  ⟨rfl, rfl, rfl⟩

/-- C1 counterexample: a response with no JSON and a response that parses
to a non-list both make the run return an exception value, so the run
does not finalize and no included.csv, excluded.csv or log is written,
contrary to the claim. -/
theorem c1_counterexample :
    process (fun _ _ => AttemptResult.ok (chars ("the model replied without any JSON")))
        rows1 titleCol abstractCol ctx1 10 = Except.error errNoJson ∧
    get_filtered_data (fun _ _ => AttemptResult.ok (chars ("\x7b\"index\":0\x7d")))
        rows1 titleCol abstractCol ctx1 10 = Except.error errNotAList :=
  ⟨rfl, rfl⟩

/-- Witness for C1 with a constant failing oracle and a constant
bracket-free response over the one-row dataset. -/
theorem c1_witness :
    0 < 2 ∧ rows1 ≠ [] ∧
    call_model ((fun _ _ => AttemptResult.err (chars ("boom")) : List Char → Nat → AttemptResult)
        (build_prompt ctx1 (mkItemsFrom titleCol abstractCol 0 0 ((rows1.drop 0).take 2)))) =
      CallOutcome.raised (chars ("boom")) ∧
    call_model ((fun _ _ => AttemptResult.ok (chars ("mumble")) : List Char → Nat → AttemptResult)
        (build_prompt ctx1 (mkItemsFrom titleCol abstractCol 0 0 ((rows1.drop 0).take 2)))) =
      CallOutcome.text (chars ("mumble")) ∧
    extract_json_array (chars ("mumble")) = Except.error errNoJson ∧
    (process (fun _ _ => AttemptResult.err (chars ("boom"))) rows1 titleCol abstractCol ctx1 2 =
        Except.ok (ProcessOutput.mk (rows1.map (fun r => OutRow.mk r sINCLUDE none)) []
          rows1.length 0 []) ∧
      process (fun _ _ => AttemptResult.ok (chars ("mumble"))) rows1 titleCol abstractCol ctx1 2 =
        Except.error errNoJson) :=
  ⟨by decide, by simp [rows1], rfl, rfl, rfl,
    c1_model_error_caught_parse_error_raised
      (fun _ _ => AttemptResult.err (chars ("boom"))) (fun _ _ => AttemptResult.ok (chars ("mumble")))
      rows1 titleCol abstractCol ctx1 2 (chars ("boom")) (chars ("mumble")) errNoJson
      (by decide) (by simp [rows1]) rfl rfl rfl⟩

/-- Witness for C7 at the dataset [0, 1, 2] with batch size 2. -/
theorem c7_witness :
    0 < 2 ∧
    ((getBatches [0, 1, 2] 2).length = (List.length [0, 1, 2] + 2 - 1) / 2 ∧
      (getBatches [0, 1, 2] 2).flatten = [0, 1, 2] ∧
      (∀ b ∈ getBatches [0, 1, 2] 2, b.length ≤ 2) ∧
      (∀ k, k + 1 < (getBatches [0, 1, 2] 2).length →
        ∃ b, (getBatches [0, 1, 2] 2)[k]? = some b ∧ b.length = 2) ∧
      (∀ k i, k < (getBatches [0, 1, 2] 2).length → i < 2 →
        ∃ b, (getBatches [0, 1, 2] 2)[k]? = some b ∧ b[i]? = [0, 1, 2][k * 2 + i]?)) :=
  ⟨by decide, c7_partition_complete [0, 1, 2] 2 (by decide)⟩

/-- Witness for C8 at the one-row dataset with an empty ResultMap. -/
theorem c8_witness :
    0 < rows1.length ∧ dictGet? [] (Int.ofNat 0) = none ∧
    ((finalizeRows rows1 [])[0]? = some (OutRow.mk (rows1.get ⟨0, by decide⟩) sINCLUDE none) ∧
      OutRow.mk (rows1.get ⟨0, by decide⟩) sINCLUDE none ∈ includedRows rows1 []) :=
  ⟨by decide, rfl, c8_fail_open rows1 [] 0 (by decide) rfl⟩

/-- C9 (amended): ResultMap keys come only from the index fields of the
parsed entries, which the model controls and which need not match any
sent record, and a store at an existing key overwrites the verdict
(last write wins). -/
theorem c9_keys_model_controlled (m0 : ResultMap) (k0 : Int) (v0 : Verdict)
    (m m2 : ResultMap) (es : JsonList) (k : Int)
    (h1 : applyEntries m es = Except.ok m2)
    (h2 : dictGet? m2 k ≠ dictGet? m k) :
    dictGet? (dictInsert m0 k0 v0) k0 = some v0 ∧ hasEntryIndex k es = true :=
  ⟨dictGet?_insert_self m0 k0 v0, applyEntries_new_keys k es m m2 h1 h2⟩

/-- Witness for C9 with a batch writing key 7 into an empty map and an
overwrite of key 5. -/
theorem c9_keys_witness :
    applyEntries [] (JsonList.cons entryIdx7 JsonList.nil) = Except.ok [(7, vInc)] ∧
    dictGet? [(7, vInc)] 7 ≠ dictGet? [] 7 ∧
    (dictGet? (dictInsert [(5, vInc)] 5 vExc) 5 = some vExc ∧
      hasEntryIndex 7 (JsonList.cons entryIdx7 JsonList.nil) = true) :=
  ⟨rfl, fun hc => Option.noConfusion hc,
    c9_keys_model_controlled [(5, vInc)] 5 vExc [] [(7, vInc)]
      (JsonList.cons entryIdx7 JsonList.nil) 7 rfl (fun hc => Option.noConfusion hc)⟩

/-- C9 counterexample: on a one-row dataset (only index 0 is ever sent)
a response naming index 5 twice leaves the map holding key 5 with the
second verdict: the key corresponds to no sent record and the first
verdict at 5 was overwritten, refuting both claimed invariants. -/
theorem c9_counterexample :
    get_filtered_data (fun _ _ => AttemptResult.ok rawC9) rows1 titleCol abstractCol ctx1 10 =
      Except.ok [(5, vExc)] ∧
    applyEntries [] (JsonList.cons entryIdx5I JsonList.nil) = Except.ok [(5, vInc)] ∧
    rows1.length = 1 :=
  ⟨rfl, rfl, rfl⟩

/-- Witness for C10 at a run whose model call fails, yielding the empty
ResultMap over the one-row dataset. -/
theorem c10_witness :
    get_filtered_data (fun _ _ => AttemptResult.err (chars ("down"))) rows1
        titleCol abstractCol ctx1 10 = Except.ok [] ∧
    ((finalizeRows rows1 []).map (fun r => r.orig) = rows1 ∧
      (includedRows rows1 []).length + (excludedRows rows1 []).length = rows1.length ∧
      (∀ results2 : ResultMap,
        (∀ i : Nat, i < rows1.length →
          dictGet? results2 (Int.ofNat i) = dictGet? [] (Int.ofNat i)) →
        finalizeRows rows1 results2 = finalizeRows rows1 [])) :=
  ⟨rfl, c10_finalization_in_range (fun _ _ => AttemptResult.err (chars ("down"))) rows1
    titleCol abstractCol ctx1 10 [] rfl⟩
